import Mathlib

/-!
Verification development for the botster-actuator remote-execution agent.

The registry, executors and connection manager are translated from the
JavaScript/TypeScript sources into executable Lean definitions:

* `ProcessRegistry` (src/process-registry.js): sessions, output buffering
  with a 200000-character sliding window and a 4000-character tail.
* `executeShell` (src/executors/shell.js): modelled as an event-step machine
  over the timer / process events, recording the callback messages emitted.
* `ProcessHandler` (src/executors/process-handler.js): the kill action and
  the key-name conversion table.
* `FileExecutor.edit` (src/executors/files.js): first-occurrence literal
  replacement on file content.
* `ReconnectManager` (src/reconnect.js): exponential backoff with jitter.
* `Actuator` send path (src/actuator.js): dropping messages while the
  socket is not open.

Buffers and file contents are modelled as `List Char` (JS strings of
16-bit code units; length and slicing coincide for the fragments used
here).  JS `Map` state is modelled as an association list with unique
keys maintained by `setSession`.  In-place mutation of a session object
becomes a keyed functional update of the registry.
-/

namespace Botster

/-- Character buffers (JS strings used as output buffers / file content). -/
abbrev Buf := List Char

/-- Source constant MAX_OUTPUT_CHARS = 200_000 (process-registry.js). -/
def MAX_OUTPUT_CHARS : Nat := 200000

/-- Source constant TAIL_CHARS = 4000 (process-registry.js). -/
def TAIL_CHARS : Nat := 4000

/-- JS `s.slice(-n)` for a non-negative `n`: the trailing `n` characters
(the whole string when `n` is `0` or exceeds the length, matching
`slice(-0) = slice(0)`). -/
def jsSliceLast (s : Buf) (n : Nat) : Buf :=
  if n = 0 then s else s.drop (s.length - n)

/-- One session record, translated field for field from the
`ProcessSession` typedef in process-registry.js.  `exitCode` and
`exitSignal` start out as JS `undefined` (`none`); once `markExited`
runs they hold the (possibly null) argument.  The stdin stream handle is
abstracted to an opaque numeric token, `none` when absent. -/
structure ProcessSession where
  id : String
  command : String
  pid : Option Nat
  startedAt : Nat
  cwd : String
  exited : Bool
  exitCode : Option (Option Int)
  exitSignal : Option (Option String)
  backgrounded : Bool
  aggregated : Buf
  tail : Buf
  maxOutputChars : Nat
  stdin : Option Nat
  deriving Repr, DecidableEq

/-- The registry's session table (`Map<string, ProcessSession>`). -/
abbrev Registry := List (String × ProcessSession)

/-- The record built by `addSession` before insertion: empty output,
not exited, not backgrounded, no pid/stdin unless supplied.  The random
8-character slug of `#createSessionSlug` is taken as the parameter `id`,
and `Date.now()` as `now`. -/
def mkSession (id command cwd : String) (pid : Option Nat) (now : Nat) : ProcessSession :=
  { id := id
    command := command
    pid := pid
    startedAt := now
    cwd := cwd
    exited := false
    exitCode := none
    exitSignal := none
    backgrounded := false
    aggregated := []
    tail := []
    maxOutputChars := MAX_OUTPUT_CHARS
    stdin := none }

/-- `Map.get`: first entry with the given key. -/
def getSession : Registry → String → Option ProcessSession
  | [], _ => none
  | (k, v) :: rest, id => if k = id then some v else getSession rest id

/-- `Map.set`: replace the entry in place when the key exists, append
otherwise. -/
def setSession : Registry → String → ProcessSession → Registry
  | [], id, s => [(id, s)]
  | (k, v) :: rest, id, s =>
      if k = id then (id, s) :: rest else (k, v) :: setSession rest id s

/-- In-place mutation of the session object stored under `id` (the JS
handlers fetch the session from the map and assign its fields). -/
def updateSession : Registry → String → (ProcessSession → ProcessSession) → Registry
  | [], _, _ => []
  | (k, v) :: rest, id, f =>
      (if k = id then (k, f v) else (k, v)) :: updateSession rest id f

/-- `ProcessRegistry.addSession(command, cwd, pid)`: insert a fresh
session and return it. -/
def addSession (reg : Registry) (command cwd : String) (pid : Option Nat)
    (id : String) (now : Nat) : Registry × ProcessSession :=
  let session := mkSession id command cwd pid now
  (setSession reg id session, session)

/-- `ProcessRegistry.listSessions()`. -/
def listSessions (reg : Registry) : List ProcessSession :=
  reg.map (·.2)

/-- `ProcessRegistry.markBackgrounded(id)`: set the flag, report whether
the session existed. -/
def markBackgrounded (reg : Registry) (id : String) : Registry × Bool :=
  match getSession reg id with
  | some _ => (updateSession reg id (fun s => { s with backgrounded := true }), true)
  | none => (reg, false)

/-- The field assignments performed by `markExited` on a live session
record: set `exited`, store the exit code and signal, clear `stdin`. -/
def exitUpdate (exitCode : Option Int) (exitSignal : Option String)
    (s : ProcessSession) : ProcessSession :=
  { s with exited := true
           exitCode := some exitCode
           exitSignal := some exitSignal
           stdin := none }

/-- `ProcessRegistry.markExited(id, exitCode, exitSignal)`. -/
def markExited (reg : Registry) (id : String) (exitCode : Option Int)
    (exitSignal : Option String) : Registry × Bool :=
  match getSession reg id with
  | some _ => (updateSession reg id (exitUpdate exitCode exitSignal), true)
  | none => (reg, false)

/-- `ProcessRegistry.#updateTail(session)`: the tail is the whole buffer
when it fits, otherwise the trailing `TAIL_CHARS` characters. -/
def updateTail (s : ProcessSession) : ProcessSession :=
  if s.aggregated.length ≤ TAIL_CHARS then { s with tail := s.aggregated }
  else { s with tail := jsSliceLast s.aggregated TAIL_CHARS }

/-- The buffer mutation of `appendOutput` on one session: concatenate,
keep only the trailing `maxOutputChars` characters on overflow, then
recompute the tail. -/
def appendBuf (s : ProcessSession) (data : Buf) : ProcessSession :=
  let newOutput := s.aggregated ++ data
  let s' :=
    if newOutput.length > s.maxOutputChars then
      { s with aggregated := jsSliceLast newOutput s.maxOutputChars }
    else
      { s with aggregated := newOutput }
  updateTail s'

/-- `ProcessRegistry.appendOutput(id, data)`. -/
def appendOutput (reg : Registry) (id : String) (data : Buf) : Registry × Bool :=
  match getSession reg id with
  | none => (reg, false)
  | some _ => (updateSession reg id (fun s => appendBuf s data), true)

/-- `ProcessRegistry.killSession(id)`: true when a pid is present and the
SIGTERM delivery does not throw; `sigtermOk` is the environment's answer
to `process.kill(pid, SIGTERM)`.  The 5-second SIGKILL escalation timer
has no return value and is not modelled. -/
def killSession (reg : Registry) (id : String) (sigtermOk : Bool) : Bool :=
  match getSession reg id with
  | some s =>
      match s.pid with
      | some _ => sigtermOk
      | none => false
  | none => false

/-- The operations of the registry, for quantifying over arbitrary call
sequences; slug, pid and timestamp arguments stand for the values the
environment happens to supply. -/
inductive RegOp where
  | add (command cwd : String) (pid : Option Nat) (id : String) (now : Nat)
  | background (id : String)
  | exitOp (id : String) (code : Option Int) (sig : Option String)
  | append (id : String) (data : Buf)

/-- Apply one registry operation. -/
def applyOp (reg : Registry) : RegOp → Registry
  | .add command cwd pid id now => (addSession reg command cwd pid id now).1
  | .background id => (markBackgrounded reg id).1
  | .exitOp id code sig => (markExited reg id code sig).1
  | .append id data => (appendOutput reg id data).1

/-! ### Lemmas about the sliding output window -/

theorem jsSliceLast_eq_drop (s : Buf) {n : Nat} (hn : n ≠ 0) :
    jsSliceLast s n = s.drop (s.length - n) := by
  simp [jsSliceLast, hn]

theorem jsSliceLast_of_le (s : Buf) (n : Nat) (h : s.length ≤ n) :
    jsSliceLast s n = s := by
  unfold jsSliceLast
  split
  · rfl
  · rw [Nat.sub_eq_zero_of_le h, List.drop_zero]

theorem jsSliceLast_length (s : Buf) {n : Nat} (hn : n ≠ 0) :
    (jsSliceLast s n).length = min s.length n := by
  rw [jsSliceLast_eq_drop s hn, List.length_drop]
  omega

theorem jsSliceLast_suffix (s : Buf) (n : Nat) : jsSliceLast s n <:+ s := by
  unfold jsSliceLast
  split
  · exact List.suffix_rfl
  · exact List.drop_suffix _ _

/-- Gluing appends across truncation: truncating, appending and
truncating again agrees with appending and truncating once. -/
theorem jsSliceLast_glue (t d : Buf) {cap : Nat} (hcap : cap ≠ 0) :
    jsSliceLast (jsSliceLast t cap ++ d) cap = jsSliceLast (t ++ d) cap := by
  rcases le_or_lt t.length cap with hle | hlt
  · rw [jsSliceLast_of_le t cap hle]
  · rw [jsSliceLast_eq_drop t hcap, jsSliceLast_eq_drop _ hcap, jsSliceLast_eq_drop _ hcap,
      List.drop_append_eq_append_drop, List.drop_append_eq_append_drop, List.drop_drop]
    have h1 : (t.drop (t.length - cap)).length = cap := by
      rw [List.length_drop]; omega
    congr 1
    · congr 1
      simp only [List.length_append, List.length_drop]
      omega
    · congr 1
      simp only [List.length_append, List.length_drop]
      omega

theorem updateTail_aggregated (s : ProcessSession) :
    (updateTail s).aggregated = s.aggregated := by
  unfold updateTail
  split <;> rfl

theorem appendBuf_maxOutputChars (s : ProcessSession) (d : Buf) :
    (appendBuf s d).maxOutputChars = s.maxOutputChars := by
  simp only [appendBuf, updateTail]
  split <;> split <;> rfl

theorem appendBuf_aggregated (s : ProcessSession) (total d : Buf)
    (hmax : s.maxOutputChars = MAX_OUTPUT_CHARS)
    (hagg : s.aggregated = jsSliceLast total MAX_OUTPUT_CHARS) :
    (appendBuf s d).aggregated = jsSliceLast (total ++ d) MAX_OUTPUT_CHARS := by
  have hM : MAX_OUTPUT_CHARS ≠ 0 := by decide
  simp only [appendBuf, updateTail_aggregated]
  split
  next h =>
    rw [hmax, hagg, jsSliceLast_glue total d hM]
  next h =>
    rcases le_or_lt total.length MAX_OUTPUT_CHARS with hle | hlt
    · rw [jsSliceLast_of_le total _ hle] at hagg
      rw [hagg] at h ⊢
      rw [jsSliceLast_of_le]
      rw [hmax] at h
      omega
    · have hlen : s.aggregated.length = MAX_OUTPUT_CHARS := by
        rw [hagg, jsSliceLast_length _ hM]; omega
      have hd : d = [] := by
        rw [hmax] at h
        have := List.length_append s.aggregated d
        have : d.length = 0 := by omega
        exact List.length_eq_zero.mp this
      subst hd
      rw [List.append_nil, List.append_nil, hagg]

theorem foldl_appendBuf_aggregated (chunks : List Buf) (s : ProcessSession) (total : Buf)
    (hmax : s.maxOutputChars = MAX_OUTPUT_CHARS)
    (hagg : s.aggregated = jsSliceLast total MAX_OUTPUT_CHARS) :
    (chunks.foldl appendBuf s).aggregated
      = jsSliceLast (total ++ chunks.flatten) MAX_OUTPUT_CHARS := by
  induction chunks generalizing s total with
  | nil => simpa using hagg
  | cons c cs ih =>
      rw [List.foldl_cons, List.flatten_cons, ← List.append_assoc]
      exact ih (appendBuf s c) (total ++ c)
        (by rw [appendBuf_maxOutputChars, hmax])
        (appendBuf_aggregated s total c hmax hagg)

theorem mkSession_aggregated_eq (id command cwd : String) (pid : Option Nat) (now : Nat) :
    (mkSession id command cwd pid now).aggregated = jsSliceLast [] MAX_OUTPUT_CHARS := by
  simp [mkSession, jsSliceLast]

/-- C3: for every session and every sequence of appended chunks, the
aggregated buffer is exactly the trailing `min(total length, 200000)`
characters of the concatenation of all appended chunks; in particular
appending 199990 copies of A and then 20 copies of B leaves a buffer of
exactly 200000 characters ending in the 20 Bs. -/
theorem c3_sliding_window :
    (∀ (id command cwd : String) (pid : Option Nat) (now : Nat) (chunks : List Buf),
      (chunks.foldl appendBuf (mkSession id command cwd pid now)).aggregated
          = jsSliceLast chunks.flatten MAX_OUTPUT_CHARS
        ∧ (chunks.foldl appendBuf (mkSession id command cwd pid now)).aggregated.length
          = min chunks.flatten.length MAX_OUTPUT_CHARS)
    ∧ (∀ (id command cwd : String) (pid : Option Nat) (now : Nat),
      ([List.replicate 199990 'A', List.replicate 20 'B'].foldl appendBuf
          (mkSession id command cwd pid now)).aggregated
        = List.replicate 199980 'A' ++ List.replicate 20 'B'
      ∧ ([List.replicate 199990 'A', List.replicate 20 'B'].foldl appendBuf
          (mkSession id command cwd pid now)).aggregated.length = 200000
      ∧ List.replicate 20 'B'
          <:+ ([List.replicate 199990 'A', List.replicate 20 'B'].foldl appendBuf
            (mkSession id command cwd pid now)).aggregated) := by
  have hM : MAX_OUTPUT_CHARS ≠ 0 := by decide
  have main : ∀ (id command cwd : String) (pid : Option Nat) (now : Nat) (chunks : List Buf),
      (chunks.foldl appendBuf (mkSession id command cwd pid now)).aggregated
        = jsSliceLast chunks.flatten MAX_OUTPUT_CHARS := by
    intro id command cwd pid now chunks
    have h := foldl_appendBuf_aggregated chunks (mkSession id command cwd pid now) []
      rfl (mkSession_aggregated_eq id command cwd pid now)
    rw [List.nil_append] at h
    exact h
  constructor
  · intro id command cwd pid now chunks
    refine ⟨main id command cwd pid now chunks, ?_⟩
    rw [main id command cwd pid now chunks, jsSliceLast_length _ hM]
  · intro id command cwd pid now
    have hconc : ([List.replicate 199990 'A', List.replicate 20 'B'] : List Buf).flatten
        = List.replicate 199990 'A' ++ List.replicate 20 'B' := by
      simp only [List.flatten_cons, List.flatten_nil, List.append_nil]
    have hfin : ([List.replicate 199990 'A', List.replicate 20 'B'].foldl appendBuf
        (mkSession id command cwd pid now)).aggregated
        = List.replicate 199980 'A' ++ List.replicate 20 'B' := by
      rw [main id command cwd pid now _, hconc,
        jsSliceLast_eq_drop _ hM, List.drop_append_eq_append_drop]
      simp only [List.length_append, List.length_replicate, List.drop_replicate]
      have e1 : 199990 + 20 - MAX_OUTPUT_CHARS = 10 := by decide
      rw [e1]
    refine ⟨hfin, ?_, ?_⟩
    · rw [hfin]
      simp only [List.length_append, List.length_replicate]
    · rw [hfin]
      exact List.suffix_append _ _

/-! ### The tail invariant (C4) -/

def tailInv (s : ProcessSession) : Prop :=
  s.tail.length ≤ TAIL_CHARS ∧ s.tail <:+ s.aggregated

theorem tailInv_updateTail (s : ProcessSession) : tailInv (updateTail s) := by
  have hT : TAIL_CHARS ≠ 0 := by decide
  unfold updateTail tailInv
  split
  next h => exact ⟨by simpa using h, by simp⟩
  next h =>
    refine ⟨?_, ?_⟩
    · simp only [jsSliceLast_length _ hT]
      omega
    · simpa using jsSliceLast_suffix s.aggregated TAIL_CHARS

theorem tailInv_appendBuf (s : ProcessSession) (d : Buf) : tailInv (appendBuf s d) := by
  simp only [appendBuf]
  exact tailInv_updateTail _

theorem tailInv_mkSession (id command cwd : String) (pid : Option Nat) (now : Nat) :
    tailInv (mkSession id command cwd pid now) := by
  refine ⟨?_, ?_⟩ <;> simp [mkSession, tailInv]

theorem tailInv_exitUpdate (code : Option Int) (sig : Option String)
    (s : ProcessSession) (h : tailInv s) : tailInv (exitUpdate code sig s) := by
  exact h

theorem tailInv_background (s : ProcessSession) (h : tailInv s) :
    tailInv { s with backgrounded := true } := by
  exact h

/-- All sessions of a registry satisfy the tail invariant. -/
def RegInv (reg : Registry) : Prop := ∀ p ∈ reg, tailInv p.2

theorem RegInv_setSession {reg : Registry} (id : String) {s : ProcessSession}
    (hreg : RegInv reg) (hs : tailInv s) : RegInv (setSession reg id s) := by
  induction reg with
  | nil =>
      intro p hp
      simp only [setSession, List.mem_singleton] at hp
      subst hp; exact hs
  | cons kv rest ih =>
      intro p hp
      obtain ⟨k, v⟩ := kv
      simp only [setSession] at hp
      split at hp
      · rcases List.mem_cons.mp hp with h | h
        · subst h; exact hs
        · exact hreg p (List.mem_cons_of_mem _ h)
      · rcases List.mem_cons.mp hp with h | h
        · subst h; exact hreg (k, v) (List.mem_cons_self _ _)
        · exact ih (fun q hq => hreg q (List.mem_cons_of_mem _ hq)) p h

theorem RegInv_updateSession {reg : Registry} (id : String)
    {f : ProcessSession → ProcessSession}
    (hreg : RegInv reg) (hf : ∀ s, tailInv s → tailInv (f s)) :
    RegInv (updateSession reg id f) := by
  induction reg with
  | nil => intro p hp; simp [updateSession] at hp
  | cons kv rest ih =>
      intro p hp
      obtain ⟨k, v⟩ := kv
      simp only [updateSession] at hp
      rcases List.mem_cons.mp hp with h | h
      · subst h
        split
        · exact hf v (hreg (k, v) (List.mem_cons_self _ _))
        · exact hreg (k, v) (List.mem_cons_self _ _)
      · exact ih (fun q hq => hreg q (List.mem_cons_of_mem _ hq)) p h

theorem RegInv_applyOp {reg : Registry} (hreg : RegInv reg) (op : RegOp) :
    RegInv (applyOp reg op) := by
  cases op with
  | add command cwd pid id now =>
      exact RegInv_setSession id hreg (tailInv_mkSession id command cwd pid now)
  | background id =>
      simp only [applyOp, markBackgrounded]
      cases h : getSession reg id with
      | none => exact hreg
      | some s => exact RegInv_updateSession id hreg (fun q hq => tailInv_background q hq)
  | exitOp id code sig =>
      simp only [applyOp, markExited]
      cases h : getSession reg id with
      | none => exact hreg
      | some s => exact RegInv_updateSession id hreg (tailInv_exitUpdate code sig)
  | append id data =>
      simp only [applyOp, appendOutput]
      cases h : getSession reg id with
      | none => exact hreg
      | some s => exact RegInv_updateSession id hreg (fun q _ => tailInv_appendBuf q data)

/-- C4: for every session reachable by any sequence of registry
operations, the tail is at most `TAIL_CHARS` characters long and is a
suffix of the aggregated buffer. -/
theorem c4_tail_invariant (ops : List RegOp) :
    ∀ p ∈ ops.foldl applyOp ([] : Registry),
      p.2.tail.length ≤ TAIL_CHARS ∧ p.2.tail <:+ p.2.aggregated := by
  have h : ∀ (l : List RegOp) (reg : Registry), RegInv reg → RegInv (l.foldl applyOp reg) := by
    intro l
    induction l with
    | nil => intro reg hreg; exact hreg
    | cons op rest ih => intro reg hreg; exact ih _ (RegInv_applyOp hreg op)
  exact h ops [] (fun p hp => by simp at hp)

/-- Closed instance of C4 at a concrete two-operation run. -/
theorem c4_witness :
    (("a", appendBuf (mkSession "a" "c" "/" none 0) ['x'])
        ∈ [RegOp.add "c" "/" none "a" 0, RegOp.append "a" ['x']].foldl applyOp ([] : Registry))
    ∧ ((appendBuf (mkSession "a" "c" "/" none 0) ['x']).tail.length ≤ TAIL_CHARS
      ∧ (appendBuf (mkSession "a" "c" "/" none 0) ['x']).tail
          <:+ (appendBuf (mkSession "a" "c" "/" none 0) ['x']).aggregated) :=
  ⟨by decide, c4_tail_invariant [RegOp.add "c" "/" none "a" 0, RegOp.append "a" ['x']]
    ("a", appendBuf (mkSession "a" "c" "/" none 0) ['x']) (by decide)⟩

/-! ### Keyed-update lemmas -/

theorem exitUpdate_exitUpdate (c c' : Option Int) (g g' : Option String)
    (s : ProcessSession) :
    exitUpdate c' g' (exitUpdate c g s) = exitUpdate c' g' s := rfl

theorem getSession_cons (k : String) (v : ProcessSession) (rest : Registry) (id : String) :
    getSession ((k, v) :: rest) id = if k = id then some v else getSession rest id := rfl

theorem updateSession_cons (k : String) (v : ProcessSession) (rest : Registry)
    (id : String) (f : ProcessSession → ProcessSession) :
    updateSession ((k, v) :: rest) id f
      = (if k = id then (k, f v) else (k, v)) :: updateSession rest id f := rfl

theorem getSession_updateSession (reg : Registry) (id : String)
    (f : ProcessSession → ProcessSession) :
    getSession (updateSession reg id f) id = (getSession reg id).map f := by
  induction reg with
  | nil => rfl
  | cons kv rest ih =>
      obtain ⟨k, v⟩ := kv
      rw [updateSession_cons, getSession_cons]
      by_cases h : k = id
      · rw [if_pos h, getSession_cons, if_pos h, if_pos h]
        rfl
      · rw [if_neg h, getSession_cons, if_neg h, if_neg h]
        exact ih

theorem updateSession_updateSession (reg : Registry) (id : String)
    (f g : ProcessSession → ProcessSession) :
    updateSession (updateSession reg id f) id g
      = updateSession reg id (fun s => g (f s)) := by
  induction reg with
  | nil => rfl
  | cons kv rest ih =>
      obtain ⟨k, v⟩ := kv
      rw [updateSession_cons, updateSession_cons]
      by_cases h : k = id
      · rw [if_pos h, updateSession_cons, if_pos h, if_pos h, ih]
      · rw [if_neg h, updateSession_cons, if_neg h, if_neg h, ih]

/-- C6: markBackgrounded and markExited are idempotent, and a second
markExited with different arguments behaves as last-write-wins: the
double call equals a single call with the second call's arguments. -/
theorem c6_idempotent_last_write_wins (reg : Registry) (id : String)
    (code code' : Option Int) (sig sig' : Option String) :
    markBackgrounded (markBackgrounded reg id).1 id = markBackgrounded reg id
    ∧ markExited (markExited reg id code sig).1 id code sig = markExited reg id code sig
    ∧ markExited (markExited reg id code sig).1 id code' sig'
        = markExited reg id code' sig' := by
  cases h : getSession reg id with
  | none => refine ⟨?_, ?_, ?_⟩ <;> simp [markBackgrounded, markExited, h]
  | some s =>
      refine ⟨?_, ?_, ?_⟩
      · simp only [markBackgrounded, h]
        rw [getSession_updateSession, h]
        simp only [Option.map_some']
        rw [updateSession_updateSession]
      · simp only [markExited, h]
        rw [getSession_updateSession, h]
        simp only [Option.map_some']
        rw [updateSession_updateSession]
        simp only [exitUpdate_exitUpdate]
      · simp only [markExited, h]
        rw [getSession_updateSession, h]
        simp only [Option.map_some']
        rw [updateSession_updateSession]
        simp only [exitUpdate_exitUpdate]

/-- C2 counterexample: on a session already marked exited, a subsequent
appendOutput does NOT leave the aggregated buffer unchanged — the
registry appends regardless of the exited flag. -/
theorem c2_counterexample :
    (getSession ((markExited (addSession ([] : Registry) "cmd" "/" none "s1" 0).1
        "s1" (some 0) none).1) "s1").map (fun s => s.exited) = some true
    ∧ (getSession ((markExited (addSession ([] : Registry) "cmd" "/" none "s1" 0).1
        "s1" (some 0) none).1) "s1").map (fun s => s.aggregated) = some []
    ∧ (getSession ((appendOutput
        ((markExited (addSession ([] : Registry) "cmd" "/" none "s1" 0).1
          "s1" (some 0) none).1) "s1" ['x']).1) "s1").map (fun s => s.aggregated)
      = some ['x'] := by
  decide

/-- C2 amended: markExited does clear the stdin handle (and set the
exited flag), but appendOutput does not consult the exited flag: a
subsequent append still mutates the aggregated buffer by the usual
sliding-window rule. -/
theorem c2_amended_markExited_clears_stdin (reg : Registry) (id : String)
    (code : Option Int) (sig : Option String) (s : ProcessSession)
    (h : getSession reg id = some s) :
    getSession (markExited reg id code sig).1 id = some (exitUpdate code sig s)
    ∧ (exitUpdate code sig s).stdin = none
    ∧ (exitUpdate code sig s).exited = true
    ∧ ∀ data : Buf,
        getSession (appendOutput (markExited reg id code sig).1 id data).1 id
          = some (appendBuf (exitUpdate code sig s) data) := by
  have h1 : getSession (markExited reg id code sig).1 id = some (exitUpdate code sig s) := by
    simp only [markExited, h]
    rw [getSession_updateSession, h]
    rfl
  refine ⟨h1, rfl, rfl, ?_⟩
  intro data
  simp only [appendOutput, h1]
  rw [getSession_updateSession, h1]
  rfl

/-- Closed instance of C2's amended statement. -/
theorem c2_witness :
    getSession [("a", mkSession "a" "c" "/" none 0)] "a" = some (mkSession "a" "c" "/" none 0)
    ∧ (getSession (markExited [("a", mkSession "a" "c" "/" none 0)] "a" (some 0) none).1 "a"
        = some (exitUpdate (some 0) none (mkSession "a" "c" "/" none 0))
      ∧ (exitUpdate (some 0) none (mkSession "a" "c" "/" none 0)).stdin = none
      ∧ (exitUpdate (some 0) none (mkSession "a" "c" "/" none 0)).exited = true
      ∧ ∀ data : Buf,
          getSession (appendOutput
              (markExited [("a", mkSession "a" "c" "/" none 0)] "a" (some 0) none).1
              "a" data).1 "a"
            = some (appendBuf (exitUpdate (some 0) none (mkSession "a" "c" "/" none 0)) data)) :=
  ⟨by decide,
    c2_amended_markExited_clears_stdin [("a", mkSession "a" "c" "/" none 0)] "a"
      (some 0) none (mkSession "a" "c" "/" none 0) (by decide)⟩

/-! ### ProcessHandler (process-handler.js) -/

/-- The protocol projection of a session
(`ProcessRegistry.toProcessInfo`). -/
structure ProcessInfo where
  id : String
  command : String
  pid : Option Nat
  startedAt : Nat
  cwd : String
  exited : Bool
  exitCode : Option (Option Int)
  exitSignal : Option (Option String)
  backgrounded : Bool
  deriving Repr, DecidableEq

/-- `ProcessRegistry.toProcessInfo(session)`. -/
def toProcessInfo (s : ProcessSession) : ProcessInfo :=
  { id := s.id
    command := s.command
    pid := s.pid
    startedAt := s.startedAt
    cwd := s.cwd
    exited := s.exited
    exitCode := s.exitCode
    exitSignal := s.exitSignal
    backgrounded := s.backgrounded }

/-- The `ProcessActionResult` shape, restricted to the fields the kill
action produces (`success`, `error`, `session`). -/
structure ProcessActionResult where
  success : Bool
  error : Option String
  session : Option ProcessInfo
  deriving Repr, DecidableEq

/-- `ProcessHandler.#killSession(sessionId)`: validate the id, look the
session up, refuse when already exited, otherwise delegate to
`ProcessRegistry.killSession` and report its boolean as
success/failure.  Total function: every code path of the handler
returns a result value (the try/catch boundaries of the source confine
exceptions). -/
def killAction (reg : Registry) (sessionId : Option String) (sigtermOk : Bool) :
    ProcessActionResult :=
  match sessionId with
  | none => { success := false, error := some "Session ID required for kill action", session := none }
  | some sid =>
      match getSession reg sid with
      | none => { success := false, error := some ("Session not found: " ++ sid), session := none }
      | some s =>
          if s.exited then
            { success := false, error := some "Process already exited", session := none }
          else if killSession reg sid sigtermOk then
            { success := true, error := none, session := some (toProcessInfo s) }
          else
            { success := false
              error := some "Failed to kill process (may have already exited)"
              session := none }

/-- C8: killing a live session whose spawn never produced a pid yields a
non-success result with the descriptive registry-failure message (the
embedded handler is total, so no exception escapes), regardless of how
signal delivery would have behaved. -/
theorem c8_kill_no_pid (reg : Registry) (sid : String) (s : ProcessSession)
    (sigtermOk : Bool) (h : getSession reg sid = some s)
    (hex : s.exited = false) (hpid : s.pid = none) :
    killAction reg (some sid) sigtermOk
      = { success := false
          error := some "Failed to kill process (may have already exited)"
          session := none } := by
  simp only [killAction, h, hex, killSession, hpid]
  rfl

/-- Closed instance of C8 on a one-session registry with no pid. -/
theorem c8_witness :
    getSession [("a", mkSession "a" "c" "/" none 0)] "a" = some (mkSession "a" "c" "/" none 0)
    ∧ (mkSession "a" "c" "/" none 0).exited = false
    ∧ (mkSession "a" "c" "/" none 0).pid = none
    ∧ killAction [("a", mkSession "a" "c" "/" none 0)] (some "a") true
      = { success := false
          error := some "Failed to kill process (may have already exited)"
          session := none } :=
  ⟨by decide, rfl, rfl,
    c8_kill_no_pid [("a", mkSession "a" "c" "/" none 0)] "a" (mkSession "a" "c" "/" none 0)
      true (by decide) rfl rfl⟩

/-! ### Key-name conversion (ProcessHandler.#convertKeySequence) -/

/-- ASCII model of `String.prototype.toLowerCase` applied per
character (the keys the handler deals in are ASCII). -/
def jsToLowerChar (c : Char) : Char :=
  if 'A' ≤ c ∧ c ≤ 'Z' then Char.ofNat (c.toNat + 32) else c

/-- The `keyMap` lookup table of named keys, entry for entry. -/
def keyMap : List (Buf × Buf) :=
  [ ("Enter".toList, ['\r'])
  , ("Return".toList, ['\r'])
  , ("Tab".toList, ['\t'])
  , ("Space".toList, [' '])
  , ("Escape".toList, ['\x1b'])
  , ("Backspace".toList, ['\x08'])
  , ("Delete".toList, ['\x7f'])
  , ("ArrowUp".toList, "\x1b[A".toList)
  , ("ArrowDown".toList, "\x1b[B".toList)
  , ("ArrowRight".toList, "\x1b[C".toList)
  , ("ArrowLeft".toList, "\x1b[D".toList)
  , ("Home".toList, "\x1b[H".toList)
  , ("End".toList, "\x1b[F".toList)
  , ("PageUp".toList, "\x1b[5~".toList)
  , ("PageDown".toList, "\x1b[6~".toList)
  , ("F1".toList, "\x1bOP".toList)
  , ("F2".toList, "\x1bOQ".toList)
  , ("F3".toList, "\x1bOR".toList)
  , ("F4".toList, "\x1bOS".toList)
  , ("F5".toList, "\x1b[15~".toList)
  , ("F6".toList, "\x1b[17~".toList)
  , ("F7".toList, "\x1b[18~".toList)
  , ("F8".toList, "\x1b[19~".toList)
  , ("F9".toList, "\x1b[20~".toList)
  , ("F10".toList, "\x1b[21~".toList)
  , ("F11".toList, "\x1b[23~".toList)
  , ("F12".toList, "\x1b[24~".toList) ]

/-- JS object-literal property access `keyMap[key]`. -/
def lookupKey : List (Buf × Buf) → Buf → Option Buf
  | [], _ => none
  | (k, v) :: rest, key => if k = key then some v else lookupKey rest key

/-- `ProcessHandler.#convertKeySequence(key)`: when the key starts with
Ctrl+, the remainder is lowercased and the char code of its FIRST
character decides — codes 97..122 map to the control characters 1..26
and return early; `charCodeAt(0)` of an empty remainder is NaN, whose
comparisons are false.  Every other case falls back to
`keyMap[key] ?? key`. -/
def convertKeySequence (key : Buf) : Buf :=
  if key.take 5 = "Ctrl+".toList then
    match (key.drop 5).map jsToLowerChar with
    | [] => (lookupKey keyMap key).getD key
    | c :: _ =>
        let code : Int := (c.toNat : Int) - 96
        if 1 ≤ code ∧ code ≤ 26 then [Char.ofNat (c.toNat - 96)]
        else (lookupKey keyMap key).getD key
  else (lookupKey keyMap key).getD key

/-- The Ctrl-combination class which the code converts: a Ctrl+ prefix
whose remainder lowercases to a string whose first character is a-z. -/
def isCtrlConvertible (key : Buf) : Bool :=
  decide (key.take 5 = "Ctrl+".toList) &&
    (match (key.drop 5).map jsToLowerChar with
     | [] => false
     | c :: _ => decide (97 ≤ c.toNat ∧ c.toNat ≤ 122))

/-- C9 counterexample: the key Ctrl+ab is not in the lookup table and is
not Ctrl+ followed by a single letter, yet convertKeySequence does not
return it unchanged — it converts it to the control character 1 because
only the first character after Ctrl+ is inspected. -/
theorem c9_counterexample :
    lookupKey keyMap "Ctrl+ab".toList = none
    ∧ "Ctrl+ab".toList.length ≠ "Ctrl+".toList.length + 1
    ∧ convertKeySequence "Ctrl+ab".toList = [Char.ofNat 1]
    ∧ convertKeySequence "Ctrl+ab".toList ≠ "Ctrl+ab".toList := by
  decide

/-- C9 amended: a key that is neither in the named-key table nor a Ctrl+
combination whose remainder BEGINS with a letter a-z (after ASCII
lowercasing) is returned verbatim; Ctrl+1 in particular comes back as
the literal six characters. -/
theorem c9_amended_unrecognized_keys_verbatim (key : Buf)
    (hmap : lookupKey keyMap key = none)
    (hctrl : isCtrlConvertible key = false) :
    convertKeySequence key = key := by
  by_cases hpre : key.take 5 = "Ctrl+".toList
  · rw [convertKeySequence, if_pos hpre]
    cases hm : (key.drop 5).map jsToLowerChar with
    | nil => rw [hmap]; rfl
    | cons c rest =>
        have hcode : (decide (97 ≤ c.toNat ∧ c.toNat ≤ 122)) = false := by
          rw [isCtrlConvertible, hm] at hctrl
          simpa [hpre] using hctrl
        have hcode' : ¬(97 ≤ c.toNat ∧ c.toNat ≤ 122) := of_decide_eq_false hcode
        have hint : ¬(1 ≤ (c.toNat : Int) - 96 ∧ (c.toNat : Int) - 96 ≤ 26) := by
          omega
        simp only [hint, if_false, ite_false, if_neg hint]
        rw [hmap]
        rfl
  · rw [convertKeySequence, if_neg hpre, hmap]
    rfl

/-- Closed instance of C9's amended statement at the key Ctrl+1. -/
theorem c9_witness :
    lookupKey keyMap "Ctrl+1".toList = none
    ∧ isCtrlConvertible "Ctrl+1".toList = false
    ∧ convertKeySequence "Ctrl+1".toList = "Ctrl+1".toList :=
  ⟨by decide, by decide,
    c9_amended_unrecognized_keys_verbatim "Ctrl+1".toList (by decide) (by decide)⟩

/-! ### FileExecutor.edit (files.js) -/

/-- JS `content.indexOf(pat)`, scanning left to right; the accumulator
`i` is the absolute index of the current scan position.  As in JS, the
empty pattern matches at the current position immediately. -/
def indexOfAux (pat : Buf) : Buf → Nat → Option Nat
  | [], i => if pat <+: ([] : Buf) then some i else none
  | s@(_ :: t), i => if pat <+: s then some i else indexOfAux pat t (i + 1)

/-- `content.indexOf(pat)` (`none` models the -1 result). -/
def jsIndexOf (content pat : Buf) : Option Nat :=
  indexOfAux pat content 0

/-- `FileExecutor.edit` on the file content: fail with not-found when
`oldText` does not occur, otherwise splice `newText` over the first
occurrence (`substring(0, idx) + newText + substring(idx + len)`).
`none` models the not-found error result, under which the file is not
rewritten. -/
def editContent (content oldText newText : Buf) : Option Buf :=
  match jsIndexOf content oldText with
  | none => none
  | some i => some (content.take i ++ newText ++ content.drop (i + oldText.length))

/-- `pat` occurs as a literal substring of `content` at index `i`. -/
def occursAt (content pat : Buf) (i : Nat) : Prop :=
  pat <+: content.drop i

instance (content pat : Buf) (i : Nat) : Decidable (occursAt content pat i) :=
  inferInstanceAs (Decidable (pat <+: content.drop i))

theorem indexOfAux_eq_none (pat : Buf) :
    ∀ (s : Buf) (k : Nat), (∀ i, ¬ pat <+: s.drop i) → indexOfAux pat s k = none := by
  intro s
  induction s with
  | nil =>
      intro k h
      rw [indexOfAux, if_neg (by simpa using h 0)]
  | cons a t ih =>
      intro k h
      rw [indexOfAux, if_neg (by simpa using h 0)]
      exact ih (k + 1) (fun i => by simpa using h (i + 1))

theorem indexOfAux_eq_some (pat : Buf) :
    ∀ (s : Buf) (i k : Nat), pat <+: s.drop i → (∀ j, j < i → ¬ pat <+: s.drop j) →
      indexOfAux pat s k = some (k + i) := by
  intro s
  induction s with
  | nil =>
      intro i k hocc hmin
      cases i with
      | zero => rw [indexOfAux, if_pos (by simpa using hocc), Nat.add_zero]
      | succ i' =>
          exact absurd (by simpa using hocc) (by simpa using hmin 0 (Nat.succ_pos i'))
  | cons a t ih =>
      intro i k hocc hmin
      cases i with
      | zero => rw [indexOfAux, if_pos (by simpa using hocc), Nat.add_zero]
      | succ i' =>
          rw [indexOfAux, if_neg (by simpa using hmin 0 (Nat.succ_pos i'))]
          have h1 : pat <+: t.drop i' := by simpa using hocc
          have h2 : ∀ j, j < i' → ¬ pat <+: t.drop j := by
            intro j hj
            simpa using hmin (j + 1) (Nat.succ_lt_succ hj)
          rw [ih i' (k + 1) h1 h2]
          congr 1
          omega

/-- C5 counterexample: after a successful edit, repeating the same edit
need not fail — when `newText` reintroduces `oldText` the second edit
succeeds again (here content abc, oldText b, newText bb). -/
theorem c5_counterexample :
    editContent "abc".toList "b".toList "bb".toList = some "abbc".toList
    ∧ editContent "abbc".toList "b".toList "bb".toList = some "abbbc".toList := by
  decide

/-- C5 amended: edit fails with not-found (leaving the content
unwritten) exactly when `oldText` has no occurrence; when it occurs, the
FIRST occurrence is replaced (uniqueness is not checked), so with
exactly one occurrence that occurrence is replaced; the concrete
abc/b/XY instance yields aXYc and repeating THAT edit fails because b no
longer occurs — but in general a repeat only fails when `oldText` does
not occur in the updated content. -/
theorem c5_amended_edit_first_occurrence :
    (∀ content oldText newText : Buf,
        (∀ i, ¬ occursAt content oldText i) →
        editContent content oldText newText = none)
    ∧ (∀ (content oldText newText : Buf) (i : Nat),
        occursAt content oldText i → (∀ j, j < i → ¬ occursAt content oldText j) →
        editContent content oldText newText
          = some (content.take i ++ newText ++ content.drop (i + oldText.length)))
    ∧ (editContent "abc".toList "b".toList "XY".toList = some "aXYc".toList
      ∧ editContent "aXYc".toList "b".toList "XY".toList = none) := by
  refine ⟨?_, ?_, by decide⟩
  · intro content oldText newText h
    rw [editContent, jsIndexOf, indexOfAux_eq_none oldText content 0 h]
  · intro content oldText newText i hocc hmin
    rw [editContent, jsIndexOf, indexOfAux_eq_some oldText content i 0 hocc hmin,
      Nat.zero_add]

/-- Closed instance of C5's amended statement at content abc, oldText b,
newText XY, first occurrence at index 1. -/
theorem c5_witness :
    occursAt "abc".toList "b".toList 1
    ∧ editContent "abc".toList "b".toList "XY".toList
        = some ("abc".toList.take 1 ++ "XY".toList ++ "abc".toList.drop (1 + "b".toList.length)) :=
  ⟨by decide,
    c5_amended_edit_first_occurrence.2.1 "abc".toList "b".toList "XY".toList 1
      (by decide)
      (fun j hj => by
        have hj0 : j = 0 := by omega
        subst hj0
        decide)⟩

/-! ### ReconnectManager (reconnect.js) -/

/-- Reconnection state: the `#attempt` counter plus the constructor
options (`baseMs ?? 1000`, `maxMs ?? 30000`, `maxAttempts ?? Infinity`,
with `none` standing for Infinity, against which `attempt >=
maxAttempts` is always false in JS).  Delays are exact rationals; the
pending timer handle carries no arithmetic content and is omitted. -/
structure ReconnectState where
  baseMs : ℚ
  maxMs : ℚ
  maxAttempts : Option Nat
  attempt : Nat
  deriving Repr, DecidableEq

/-- The `ReconnectManager` constructor with its defaults. -/
def mkReconnect (base? max? : Option ℚ) (maxAttempts? : Option Nat) : ReconnectState :=
  { baseMs := base?.getD 1000
    maxMs := max?.getD 30000
    maxAttempts := maxAttempts?
    attempt := 0 }

/-- The delay computed inside `schedule`:
`Math.min(baseMs * Math.pow(2, attempt) + Math.random() * 1000, maxMs)`,
with `jitter` the sampled value of `Math.random() * 1000`. -/
def reconnectDelay (st : ReconnectState) (jitter : ℚ) : ℚ :=
  min (st.baseMs * 2 ^ st.attempt + jitter) st.maxMs

/-- `ReconnectManager.schedule(fn)`: refuse (`none`, modelling the
`return false`) when the attempt counter has reached a configured
ceiling; otherwise compute the delay for the current attempt and
increment the counter. -/
def schedule (st : ReconnectState) (jitter : ℚ) : Option (ℚ × ReconnectState) :=
  match st.maxAttempts with
  | some m =>
      if st.attempt ≥ m then none
      else some (reconnectDelay st jitter, { st with attempt := st.attempt + 1 })
  | none => some (reconnectDelay st jitter, { st with attempt := st.attempt + 1 })

/-- `reset()` (also the body of `destroy()`): counter back to zero. -/
def resetReconnect (st : ReconnectState) : ReconnectState :=
  { st with attempt := 0 }

/-- A default-constructed manager whose counter has reached `n`. -/
def defaultReconnectAt (n : Nat) : ReconnectState :=
  { mkReconnect none none none with attempt := n }

/-- C7: below the ceiling the scheduled delay is exactly
`min(base * 2 ^ attempt + jitter, max)`; the defaults are 1000 and
30000; with the defaults the delay strictly increases from each attempt
to the next for every admissible jitter while below the cap, and from
the 6th attempt on (0-based counter 5 and later, so the 6th, 7th, ...
1-based attempts) it is exactly 30000 regardless of jitter; at a
configured ceiling schedule refuses. -/
theorem c7_backoff_delay :
    (∀ (b mx : ℚ) (mA : Option Nat) (n : Nat) (j : ℚ),
        (∀ m, mA = some m → n < m) →
        schedule { baseMs := b, maxMs := mx, maxAttempts := mA, attempt := n } j
          = some (min (b * 2 ^ n + j) mx,
              { baseMs := b, maxMs := mx, maxAttempts := mA, attempt := n + 1 }))
    ∧ ((mkReconnect none none none).baseMs = 1000
      ∧ (mkReconnect none none none).maxMs = 30000)
    ∧ (∀ (n : Nat) (j j' : ℚ), n < 5 → 0 ≤ j → j < 1000 → 0 ≤ j' →
        reconnectDelay (defaultReconnectAt n) j
          < reconnectDelay (defaultReconnectAt (n + 1)) j')
    ∧ (∀ (n : Nat) (j : ℚ), 5 ≤ n → 0 ≤ j →
        reconnectDelay (defaultReconnectAt n) j = 30000)
    ∧ (∀ (b mx : ℚ) (m n : Nat) (j : ℚ), m ≤ n →
        schedule { baseMs := b, maxMs := mx, maxAttempts := some m, attempt := n } j
          = none) := by
  refine ⟨?_, ⟨rfl, rfl⟩, ?_, ?_, ?_⟩
  · intro b mx mA n j h
    cases mA with
    | none => rfl
    | some m =>
        have hm : ¬ n ≥ m := by
          have := h m rfl
          omega
        simp only [schedule]
        rw [if_neg hm]
        rfl
  · intro n j j' hn hj0 hj1 hj'
    have e1 : reconnectDelay (defaultReconnectAt n) j
        = min ((1000 : ℚ) * 2 ^ n + j) 30000 := rfl
    have e2 : reconnectDelay (defaultReconnectAt (n + 1)) j'
        = min ((1000 : ℚ) * 2 ^ (n + 1) + j') 30000 := rfl
    rw [e1, e2]
    have h1 : (1 : ℚ) ≤ 2 ^ n := one_le_pow₀ (by norm_num)
    have h16 : (2 : ℚ) ^ n ≤ 16 := by
      have h2 : (2 : ℚ) ^ n ≤ 2 ^ 4 := pow_le_pow_right₀ (by norm_num) (by omega)
      norm_num at h2
      exact h2
    have hlt30 : (1000 : ℚ) * 2 ^ n + j < 30000 := by nlinarith
    rw [min_eq_left (le_of_lt hlt30)]
    apply lt_min
    · have hp : (2 : ℚ) ^ (n + 1) = 2 ^ n * 2 := pow_succ 2 n
      nlinarith
    · exact hlt30
  · intro n j hn hj
    have h32 : (32 : ℚ) ≤ 2 ^ n := by
      have h2 : (2 : ℚ) ^ 5 ≤ 2 ^ n := pow_le_pow_right₀ (by norm_num) (by omega)
      norm_num at h2
      exact h2
    have hge : (30000 : ℚ) ≤ 1000 * 2 ^ n + j := by nlinarith
    exact min_eq_right hge
  · intro b mx m n j h
    simp only [schedule]
    rw [if_pos (by omega)]

/-- Closed instances of C7 at concrete attempts and jitters. -/
theorem c7_witness :
    schedule { baseMs := 1000, maxMs := 30000, maxAttempts := none, attempt := 0 } 0
        = some (min ((1000 : ℚ) * 2 ^ 0 + 0) 30000,
            { baseMs := 1000, maxMs := 30000, maxAttempts := none, attempt := 1 })
    ∧ ((0 : ℚ) ≤ 0 ∧ (0 : ℚ) < 1000 ∧ (0 : ℚ) ≤ 999
      ∧ reconnectDelay (defaultReconnectAt 0) 0 < reconnectDelay (defaultReconnectAt 1) 999)
    ∧ reconnectDelay (defaultReconnectAt 6) 0 = 30000
    ∧ schedule { baseMs := 1000, maxMs := 30000, maxAttempts := some 3, attempt := 3 } 0
        = none :=
  ⟨c7_backoff_delay.1 1000 30000 none 0 0 (fun m hm => Option.noConfusion hm),
    ⟨le_refl 0, by norm_num, by norm_num,
      c7_backoff_delay.2.2.1 0 0 999 (by norm_num) (le_refl 0) (by norm_num) (by norm_num)⟩,
    c7_backoff_delay.2.2.2.1 6 0 (by norm_num) (le_refl 0),
    c7_backoff_delay.2.2.2.2 1000 30000 3 3 0 (le_refl 3)⟩

/-! ### Actuator outbound send path (actuator.js) -/

/-- WebSocket ready states (the `ws` library constants). -/
inductive WsReadyState where
  | CONNECTING
  | OPEN
  | CLOSING
  | CLOSED
  deriving Repr, DecidableEq

/-- Command-result statuses of the wire protocol. -/
inductive CmdStatus where
  | completed
  | failed
  | running
  deriving Repr, DecidableEq

/-- Outbound messages; the JSON result payload is kept abstract as its
serialized form. -/
inductive OutMsg where
  | commandResult (id : String) (status : CmdStatus) (result : String)
  | pong (ts : Nat)
  deriving Repr, DecidableEq

/-- The slice of actuator state that `#send` touches: the socket
(absent when `#ws` is null, otherwise its readyState) and the list of
frames actually handed to `ws.send`, newest last.  There is no queue
field because the source keeps none. -/
structure ActuatorConn where
  ws : Option WsReadyState
  sent : List OutMsg
  deriving Repr, DecidableEq

/-- `Actuator.#send(msg)`: hand the frame to the socket only when
`this.#ws?.readyState === WebSocket.OPEN`; in every other case fall
straight through — no queueing, no retry, no error. -/
def send (st : ActuatorConn) (msg : OutMsg) : ActuatorConn :=
  match st.ws with
  | some WsReadyState.OPEN => { st with sent := st.sent ++ [msg] }
  | _ => st

/-- `Actuator.#sendResult(id, status, result)`. -/
def sendResult (st : ActuatorConn) (id : String) (status : CmdStatus)
    (result : String) : ActuatorConn :=
  send st (OutMsg.commandResult id status result)

/-- C10: when the socket is null or not in the OPEN state, send — and
hence sendResult for any command result produced while disconnected —
returns the state unchanged: the message is silently dropped, neither
queued nor raising an error; when the socket is OPEN the frame is
appended to the outbound stream. -/
theorem c10_send_drops_when_not_open (st : ActuatorConn) (msg : OutMsg)
    (id : String) (status : CmdStatus) (result : String)
    (h : st.ws ≠ some WsReadyState.OPEN) :
    send st msg = st
    ∧ sendResult st id status result = st
    ∧ (∀ st' : ActuatorConn, st'.ws = some WsReadyState.OPEN →
        send st' msg = { st' with sent := st'.sent ++ [msg] }) := by
  have hsend : ∀ m : OutMsg, send st m = st := by
    intro m
    cases hw : st.ws with
    | none => simp [send, hw]
    | some r =>
        cases r with
        | OPEN => exact absurd hw h
        | CONNECTING => simp [send, hw]
        | CLOSING => simp [send, hw]
        | CLOSED => simp [send, hw]
  refine ⟨hsend msg, hsend _, ?_⟩
  intro st' h'
  simp [send, h']

/-- Closed instance of C10 with a null socket. -/
theorem c10_witness :
    (⟨none, []⟩ : ActuatorConn).ws ≠ some WsReadyState.OPEN
    ∧ send ⟨none, []⟩ (OutMsg.pong 7) = ⟨none, []⟩
    ∧ sendResult ⟨none, []⟩ "cmd-1" CmdStatus.completed "r" = ⟨none, []⟩ :=
  ⟨by decide,
    (c10_send_drops_when_not_open ⟨none, []⟩ (OutMsg.pong 7) "cmd-1"
      CmdStatus.completed "r" (by decide)).1,
    (c10_send_drops_when_not_open ⟨none, []⟩ (OutMsg.pong 7) "cmd-1"
      CmdStatus.completed "r" (by decide)).2.1⟩

/-! ### executeShell as an event machine (shell.js)

After a successful spawn, executeShell installs a hard-timeout timer, an
optional yield timer, and the child's close and error handlers.  The
machine below is those four handlers verbatim; the environment chooses
the event order.  A cleared timer cannot fire and Node delivers each of
close/error at most once, so those impossible deliveries are no-ops.
Node documents that an exit/close CAN follow an error event (for
instance when an asynchronous spawn failure is reported), so a trace may
contain both. -/

/-- The callback messages executeShell emits towards its caller: yield
(onYield, not terminal), done (onDone) and fail (onError, used alike for
spawn failures, timeouts and runtime process errors). -/
inductive ShellMsg where
  | yielded
  | done (exitCode : Int)
  | fail (msg : String)
  deriving Repr, DecidableEq

/-- Terminal outcomes are done and fail; a yield is not terminal. -/
def ShellMsg.isTerminal : ShellMsg → Bool
  | .yielded => false
  | .done _ => true
  | .fail _ => true

/-- The mutable flags of one invocation after a successful spawn: the
`killed` flag, the session's exited/backgrounded flags (as maintained
through the registry), whether the timeout and yield timers are still
pending, and whether the close/error events were already delivered. -/
structure ExecState where
  killed : Bool
  exited : Bool
  backgrounded : Bool
  timerArmed : Bool
  yieldArmed : Bool
  closeSeen : Bool
  errorSeen : Bool
  deriving Repr, DecidableEq

/-- Events the environment can deliver to one invocation. -/
inductive ExecEvent where
  | timeoutFire
  | yieldFire
  | procClose (code : Option Int) (signal : Option String)
  | procError (msg : String)
  deriving Repr, DecidableEq

def ExecEvent.isClose : ExecEvent → Bool
  | .procClose _ _ => true
  | _ => false

def ExecEvent.isError : ExecEvent → Bool
  | .procError _ => true
  | _ => false

/-- One handler invocation, exactly as wired in executeShell: the
timeout handler checks `killed`, then sets it, marks the session exited
and reports a timeout error; the yield handler checks `killed` and
`session.exited` before backgrounding and yielding; the close and error
handlers clear both timers and check only `killed` before reporting.
The SIGTERM/SIGKILL deliveries emit no messages and are omitted. -/
def step (s : ExecState) : ExecEvent → ExecState × List ShellMsg
  | .timeoutFire =>
      if s.timerArmed = true then
        if s.killed = false then
          ({ s with timerArmed := false, killed := true, exited := true },
            [ShellMsg.fail "Command timed out"])
        else ({ s with timerArmed := false }, [])
      else (s, [])
  | .yieldFire =>
      if s.yieldArmed = true then
        if s.killed = false ∧ s.exited = false then
          ({ s with yieldArmed := false, backgrounded := true }, [ShellMsg.yielded])
        else ({ s with yieldArmed := false }, [])
      else (s, [])
  | .procClose code _signal =>
      if s.closeSeen = false then
        if s.killed = false then
          ({ s with
              closeSeen := true
              timerArmed := false
              yieldArmed := false
              exited := true }, [ShellMsg.done (code.getD 1)])
        else ({ s with closeSeen := true, timerArmed := false, yieldArmed := false }, [])
      else (s, [])
  | .procError m =>
      if s.errorSeen = false then
        if s.killed = false then
          ({ s with
              errorSeen := true
              timerArmed := false
              yieldArmed := false
              exited := true }, [ShellMsg.fail ("Process error: " ++ m)])
        else ({ s with errorSeen := true, timerArmed := false, yieldArmed := false }, [])
      else (s, [])

/-- Run the handlers over an event trace, collecting every message. -/
def runEvents (s : ExecState) : List ExecEvent → List ShellMsg
  | [] => []
  | e :: es => (step s e).2 ++ runEvents (step s e).1 es

/-- The state right after a successful spawn: timeout armed, yield timer
armed iff `opts.yieldMs` and an onYield callback were supplied. -/
def initExecState (hasYield : Bool) : ExecState :=
  { killed := false, exited := false, backgrounded := false,
    timerArmed := true, yieldArmed := hasYield,
    closeSeen := false, errorSeen := false }

/-- All messages of one executeShell invocation: a synchronous spawn
throw reports exactly one spawn-failure error and installs no timers or
handlers; otherwise the handlers run over the environment's trace. -/
def execOutcomes (spawnOk : Bool) (hasYield : Bool)
    (events : List ExecEvent) : List ShellMsg :=
  if spawnOk then runEvents (initExecState hasYield) events
  else [ShellMsg.fail "Failed to spawn"]

/-- The number of terminal outcome messages in a message list. -/
def terminalCount (msgs : List ShellMsg) : Nat :=
  msgs.countP ShellMsg.isTerminal

/-- C1 counterexample: the close and error handlers both guard only on
`killed` and neither sets it, so a trace in which the child emits error
and then close — which Node permits, e.g. an asynchronous spawn failure
— produces TWO terminal outcome callbacks for the one invocation. -/
theorem c1_counterexample :
    execOutcomes true false
        [ExecEvent.procError "spawn ENOENT", ExecEvent.procClose none none]
      = [ShellMsg.fail "Process error: spawn ENOENT", ShellMsg.done 1]
    ∧ terminalCount (execOutcomes true false
        [ExecEvent.procError "spawn ENOENT", ExecEvent.procClose none none]) = 2 := by
  decide

theorem terminalCount_append (a b : List ShellMsg) :
    terminalCount (a ++ b) = terminalCount a + terminalCount b :=
  List.countP_append _ a b

/-- A state past its terminal report, in a trace without error events:
either the timeout already reported (`killed`), or close reported and
disarmed the timeout. -/
def BlockedClose (s : ExecState) : Bool :=
  s.killed || (s.closeSeen && !s.timerArmed)

/-- Mirror of `BlockedClose` for traces without close events. -/
def BlockedErr (s : ExecState) : Bool :=
  s.killed || (s.errorSeen && !s.timerArmed)

theorem step_bound_close (s : ExecState) (e : ExecEvent) (he : e.isError = false) :
    terminalCount (step s e).2
        + (if BlockedClose (step s e).1 = true then 0 else 1)
      ≤ (if BlockedClose s = true then 0 else 1) := by
  obtain ⟨k, x, b, t, y, c, er⟩ := s
  cases e with
  | timeoutFire =>
      cases k <;> cases t <;> cases c <;>
        simp [step, BlockedClose, terminalCount, ShellMsg.isTerminal]
  | yieldFire =>
      cases k <;> cases x <;> cases y <;> cases c <;> cases t <;>
        simp [step, BlockedClose, terminalCount, ShellMsg.isTerminal]
  | procClose code sig =>
      cases k <;> cases c <;> cases t <;>
        simp [step, BlockedClose, terminalCount, ShellMsg.isTerminal]
  | procError m => simp [ExecEvent.isError] at he

theorem step_bound_err (s : ExecState) (e : ExecEvent) (he : e.isClose = false) :
    terminalCount (step s e).2
        + (if BlockedErr (step s e).1 = true then 0 else 1)
      ≤ (if BlockedErr s = true then 0 else 1) := by
  obtain ⟨k, x, b, t, y, c, er⟩ := s
  cases e with
  | timeoutFire =>
      cases k <;> cases t <;> cases er <;>
        simp [step, BlockedErr, terminalCount, ShellMsg.isTerminal]
  | yieldFire =>
      cases k <;> cases x <;> cases y <;> cases er <;> cases t <;>
        simp [step, BlockedErr, terminalCount, ShellMsg.isTerminal]
  | procError m =>
      cases k <;> cases er <;> cases t <;>
        simp [step, BlockedErr, terminalCount, ShellMsg.isTerminal]
  | procClose code sig => simp [ExecEvent.isClose] at he

theorem runEvents_bound_close (events : List ExecEvent) :
    ∀ s : ExecState, (∀ e ∈ events, e.isError = false) →
      terminalCount (runEvents s events)
        ≤ (if BlockedClose s = true then 0 else 1) := by
  induction events with
  | nil =>
      intro s _
      simp [runEvents, terminalCount]
  | cons e es ih =>
      intro s h
      have he := h e (List.mem_cons_self e es)
      have hes : ∀ e' ∈ es, e'.isError = false :=
        fun e' h' => h e' (List.mem_cons_of_mem _ h')
      have h1 := step_bound_close s e he
      have h2 := ih (step s e).1 hes
      rw [runEvents, terminalCount_append]
      omega

theorem runEvents_bound_err (events : List ExecEvent) :
    ∀ s : ExecState, (∀ e ∈ events, e.isClose = false) →
      terminalCount (runEvents s events)
        ≤ (if BlockedErr s = true then 0 else 1) := by
  induction events with
  | nil =>
      intro s _
      simp [runEvents, terminalCount]
  | cons e es ih =>
      intro s h
      have he := h e (List.mem_cons_self e es)
      have hes : ∀ e' ∈ es, e'.isClose = false :=
        fun e' h' => h e' (List.mem_cons_of_mem _ h')
      have h1 := step_bound_err s e he
      have h2 := ih (step s e).1 hes
      rw [runEvents, terminalCount_append]
      omega

/-- C1 amended: provided the child process delivers at most one of its
close and error events (the normal case — the counterexample needs
both), every invocation of executeShell emits at most one terminal
outcome: completion, timeout error, spawn error or runtime error; the
yield message is not terminal, and a yield followed by completion gives
exactly the two messages yielded then done. -/
theorem c1_amended_single_terminal :
    (∀ (spawnOk hasYield : Bool) (events : List ExecEvent),
        ¬(events.any ExecEvent.isClose = true ∧ events.any ExecEvent.isError = true) →
        terminalCount (execOutcomes spawnOk hasYield events) ≤ 1)
    ∧ execOutcomes true true [ExecEvent.yieldFire, ExecEvent.procClose (some 0) none]
        = [ShellMsg.yielded, ShellMsg.done 0] := by
  constructor
  · intro spawnOk hasYield events h
    cases spawnOk with
    | false => simp [execOutcomes, terminalCount, ShellMsg.isTerminal]
    | true =>
        have hrun : execOutcomes true hasYield events
            = runEvents (initExecState hasYield) events := rfl
        rw [hrun]
        rcases not_and_or.mp h with hnc | hne
        · have hes : ∀ e ∈ events, e.isClose = false := by
            intro e hmem
            by_contra hc
            exact hnc (List.any_eq_true.mpr ⟨e, hmem, by simpa using hc⟩)
          have hb := runEvents_bound_err events (initExecState hasYield) hes
          have hinit : BlockedErr (initExecState hasYield) = false := by
            simp [BlockedErr, initExecState]
          rw [hinit] at hb
          simpa using hb
        · have hes : ∀ e ∈ events, e.isError = false := by
            intro e hmem
            by_contra hc
            exact hne (List.any_eq_true.mpr ⟨e, hmem, by simpa using hc⟩)
          have hb := runEvents_bound_close events (initExecState hasYield) hes
          have hinit : BlockedClose (initExecState hasYield) = false := by
            simp [BlockedClose, initExecState]
          rw [hinit] at hb
          simpa using hb
  · decide

/-- Closed instance of C1's amended statement on a yield-then-close
trace. -/
theorem c1_witness :
    ¬(([ExecEvent.yieldFire, ExecEvent.procClose (some 0) none].any ExecEvent.isClose) = true
        ∧ ([ExecEvent.yieldFire, ExecEvent.procClose (some 0) none].any ExecEvent.isError) = true)
    ∧ terminalCount (execOutcomes true true
        [ExecEvent.yieldFire, ExecEvent.procClose (some 0) none]) ≤ 1 :=
  ⟨by decide,
    c1_amended_single_terminal.1 true true
      [ExecEvent.yieldFire, ExecEvent.procClose (some 0) none] (by decide)⟩

end Botster
